import Mathlib

/-!
Verification of the Issue14Native stress harness (Issue14Native.cpp).

The development shallowly embeds the harness's data model and operations:

* `PMemPageEntry`, `PhysMemRegion`, `PhysMemMap` mirror the C++ structs and
  the `VMMDLL_MAP_PHYSMEM` region map.
* `pageListLoop` / `buildPageList` embed `VmmSession::BuildPageList`'s inner
  `while (cbToEnd > 0x1000)` loop and the surrounding region iteration.
  The loop is written with an explicit fuel argument equal to the starting
  byte count; each iteration consumes 4096 bytes and one unit of fuel, so
  the fuel never runs out before the loop guard fails (`pageListLoopF_eq`
  makes this precise), and the definition stays structurally recursive and
  computable.
* `Prng` models the deterministic `std::mt19937_64` stream as an infinite
  stream of raw draws plus a cursor; `uniformInt a b` models
  `std::uniform_int_distribution<T>(a,b)` by its contract: it consumes one
  raw draw and returns a value in the closed interval `[a, b]`,
  deterministically in the stream.
* `GetRandomPage` / `GetRandomPages` embed the sampling functions,
  including the `size_t` wraparound of `pages_.size() - 1` on an empty
  vector; an out-of-bounds `std::vector::operator[]` access (undefined
  behaviour in C++) is modelled as `Option.none`.
* `SimulateGCSafepoint`, `DoReads` (with `prepareLoop`, `readLoop`) embed
  the safepoint primitive and the scatter-read workload, producing an
  event trace; C API calls (`VMMDLL_Scatter_*`) are oracles in
  `ScatterEnv`, and `std::vector` allocations that can raise
  `std::bad_alloc` are fallible oracle steps.
* `workerCatch` / `workerLoopRun` embed the try/catch boundary of
  `LongWorker` and `TransientWorker`; `Step` / `Reachable` give the
  interleaved counter semantics of the worker population.
-/

/-- One addressable page entry, as built by `VmmSession::BuildPageList`:
`struct PMemPageEntry { uint64_t PageBase; uint64_t RemainingBytesInSection; }`. -/
structure PMemPageEntry where
  PageBase : Nat
  RemainingBytesInSection : Nat
deriving Repr, DecidableEq

/-- One contiguous physical-memory region from the region map
(`VMMDLL_MAP_PHYSMEMENTRY`): base address `pa` and byte length `cb`. -/
structure PhysMemRegion where
  pa : Nat
  cb : Nat
deriving Repr, DecidableEq

/-- The reported region map (`VMMDLL_MAP_PHYSMEM`): a version tag
`dwVersion` and the region array `pMap`. -/
structure PhysMemMap where
  dwVersion : Nat
  pMap : List PhysMemRegion
deriving Repr, DecidableEq

/-- The inner `while (cbToEnd > 0x1000)` loop of `BuildPageList`, with an
explicit fuel argument (see the file header): pushes `{p, cbToEnd}` then
advances `p += 0x1000; cbToEnd -= 0x1000`. -/
def pageListLoopF : Nat → Nat → Nat → List PMemPageEntry
  | 0, _, _ => []
  | fuel + 1, p, cbToEnd =>
    if cbToEnd > 0x1000 then
      ⟨p, cbToEnd⟩ :: pageListLoopF fuel (p + 0x1000) (cbToEnd - 0x1000)
    else []

/-- The page entries contributed by one region `{pa := p, cb := cbToEnd}`:
the inner while loop run with enough fuel. -/
def pageListLoop (p cbToEnd : Nat) : List PMemPageEntry :=
  pageListLoopF cbToEnd p cbToEnd

/-- The full page list built by `VmmSession::BuildPageList` before the final
`std::shuffle`: each region of the map contributes `pageListLoop` entries,
in region order. -/
def buildPageList (regions : List PhysMemRegion) : List PMemPageEntry :=
  regions.flatMap (fun r => pageListLoop r.pa r.cb)

/-- `pages_` is the built list after `std::shuffle`: some permutation of
`buildPageList regions`. -/
def PoolOf (regions : List PhysMemRegion) (pool : List PMemPageEntry) : Prop :=
  pool.Perm (buildPageList regions)

/-- The version / null check at the top of `BuildPageList`: a missing map or
a `dwVersion` different from `VMMDLL_MAP_PHYSMEM_VERSION` (abstracted as
`expectedVersion`) throws `std::runtime_error`, modelled as `Except.error`;
otherwise the page list is built. -/
def buildPageListChecked (expectedVersion : Nat) (m : Option PhysMemMap) :
    Except String (List PMemPageEntry) :=
  match m with
  | none => .error "Unexpected physmem map version."
  | some mm =>
    if mm.dwVersion ≠ expectedVersion then .error "Unexpected physmem map version."
    else .ok (buildPageList mm.pMap)

/-- Closed form of the inner while loop, provided the fuel is at least the
starting byte count: the k-th entry pushed is
`⟨p + 4096*k, cbToEnd - 4096*k⟩`, and the loop pushes `(cbToEnd-1)/4096`
entries. -/
theorem pageListLoopF_eq (fuel : Nat) :
    ∀ p cbToEnd : Nat, cbToEnd ≤ fuel →
      pageListLoopF fuel p cbToEnd =
        (List.range ((cbToEnd - 1) / 4096)).map
          (fun k => ⟨p + 4096 * k, cbToEnd - 4096 * k⟩) := by
  induction fuel with
  | zero =>
    intro p cbToEnd h
    have hz : cbToEnd = 0 := Nat.le_zero.mp h
    subst hz
    simp [pageListLoopF]
  | succ fuel ih =>
    intro p cbToEnd h
    by_cases hgt : cbToEnd > 0x1000
    · have hfuel : cbToEnd - 0x1000 ≤ fuel := by omega
      have hdiv : (cbToEnd - 1) / 4096 = (cbToEnd - 0x1000 - 1) / 4096 + 1 := by
        have h1 : cbToEnd - 1 = (cbToEnd - 0x1000 - 1) + 4096 := by omega
        rw [h1, Nat.add_div_right _ (by norm_num)]
      rw [show pageListLoopF (fuel + 1) p cbToEnd =
            ⟨p, cbToEnd⟩ :: pageListLoopF fuel (p + 0x1000) (cbToEnd - 0x1000) by
          simp [pageListLoopF, hgt]]
      rw [ih (p + 0x1000) (cbToEnd - 0x1000) hfuel, hdiv,
        List.range_succ_eq_map, List.map_cons, List.map_map]
      simp only [Nat.mul_zero, Nat.add_zero, Nat.sub_zero, List.cons.injEq]
      refine ⟨by trivial, List.map_congr_left fun k hk => ?_⟩
      simp only [Function.comp_apply, PMemPageEntry.mk.injEq, Nat.succ_eq_add_one]
      omega
    · have hle : cbToEnd ≤ 0x1000 := Nat.not_lt.mp hgt
      have hdiv0 : (cbToEnd - 1) / 4096 = 0 := Nat.div_eq_of_lt (by omega)
      rw [hdiv0]
      simp [pageListLoopF, hgt]

/-- Closed form of `pageListLoop` (the fuel `cbToEnd` is sufficient). -/
theorem pageListLoop_eq (p cbToEnd : Nat) :
    pageListLoop p cbToEnd =
      (List.range ((cbToEnd - 1) / 4096)).map
        (fun k => ⟨p + 4096 * k, cbToEnd - 4096 * k⟩) :=
  pageListLoopF_eq cbToEnd p cbToEnd (Nat.le_refl _)

/-- Number of page entries contributed by one region of length `cbToEnd`. -/
theorem pageListLoop_length (p cbToEnd : Nat) :
    (pageListLoop p cbToEnd).length = (cbToEnd - 1) / 4096 := by
  rw [pageListLoop_eq]; simp

/-- Deterministic model of the seeded `std::mt19937_64` engine: an infinite
stream of raw 64-bit draws plus a cursor. The engine is a pure function of
its seed, so a fixed seed fixes the whole stream. -/
structure Prng where
  stream : Nat → Nat
  pos : Nat

/-- Consume one raw draw from the engine. -/
def Prng.next (g : Prng) : Nat × Prng :=
  (g.stream g.pos, ⟨g.stream, g.pos + 1⟩)

/-- Contract model of `std::uniform_int_distribution<T>(a, b)(prng)`: one
raw draw is consumed and mapped into the closed interval `[a, b]`
(`a + raw % (b - a + 1)`), deterministically in the stream. -/
def uniformInt (a b : Nat) (g : Prng) : Nat × Prng :=
  let (r, g') := g.next
  (a + r % (b - a + 1), g')

/-- Word size of `size_t` / the 64-bit draw width. -/
def wordSize : Nat := 2 ^ 64

/-- `VmmSession::GetRandomPage`: draws
`std::uniform_int_distribution<size_t>(0, pages_.size() - 1)` and returns
`pages_[idx]`. `pages_.size() - 1` is computed on `size_t`, so an empty
vector wraps to `2^64 - 1`; the vector access is modelled by `List.getElem?`
so that `none` marks an out-of-bounds `operator[]` — undefined behaviour in
the C++ source. -/
def GetRandomPage (pages : List PMemPageEntry) (g : Prng) :
    Option PMemPageEntry × Prng :=
  let hi := (pages.length + (wordSize - 1)) % wordSize
  let (idx, g') := uniformInt 0 hi g
  (pages[idx]?, g')

/-- `VmmSession::GetRandomPages`: `count` successive `GetRandomPage` draws,
in order. `none` propagates an out-of-bounds draw. -/
def GetRandomPages (pages : List PMemPageEntry) (g : Prng) :
    Nat → Option (List PMemPageEntry) × Prng
  | 0 => (some [], g)
  | n + 1 =>
    let d := GetRandomPage pages g
    match d.1 with
    | none => (none, d.2)
    | some e =>
      let rest := GetRandomPages pages d.2 n
      (rest.1.map (fun l => e :: l), rest.2)

/-- On a non-empty pool of fewer than `2^64` pages, the sampled index is in
bounds, so `GetRandomPage` returns an element of the pool. -/
theorem GetRandomPage_mem (pages : List PMemPageEntry) (g : Prng)
    (hne : pages ≠ []) (hlt : pages.length < wordSize) :
    ∃ e, (GetRandomPage pages g).1 = some e ∧ e ∈ pages := by
  have hpos : 0 < pages.length := List.length_pos.mpr hne
  have hhi : (pages.length + (wordSize - 1)) % wordSize = pages.length - 1 := by
    have hws : 0 < wordSize := by norm_num [wordSize]
    have h1 : pages.length + (wordSize - 1) = (pages.length - 1) + wordSize := by omega
    rw [h1, Nat.add_mod_right]
    exact Nat.mod_eq_of_lt (by omega)
  have hidx : (g.stream g.pos) % (pages.length - 1 - 0 + 1) < pages.length := by
    have : pages.length - 1 - 0 + 1 = pages.length := by omega
    rw [this]
    exact Nat.mod_lt _ hpos
  simp only [GetRandomPage, uniformInt, Prng.next, hhi]
  refine ⟨pages[(g.stream g.pos) % (pages.length - 1 - 0 + 1)], ?_, List.getElem_mem _⟩
  simp only [Nat.zero_add]
  exact List.getElem?_eq_getElem (by omega)

/-- The scheduler action taken by the tail of `SimulateGCSafepoint`:
`SwitchToThread()` (yield without sleeping), `Sleep(0)` (yield the
timeslice via a zero-duration sleep), or nothing. -/
inductive YieldAction
  | switchToThread
  | sleepZero
  | nothing
deriving Repr, DecidableEq

/-- Observable outcome of one `SimulateGCSafepoint` call: how many
milliseconds were slept for the pause emulation (`Sleep(1)` when the shared
pause flag is set, else no sleep), the drawn value `r`, and the yield
action chosen from `r`. -/
structure SafepointResult where
  sleptPauseMs : Nat
  draw : Nat
  yield : YieldAction
deriving Repr, DecidableEq

/-- `SimulateGCSafepoint(prng)`: reads the shared `g_simulateGCPause` flag
(passed here as `pauseFlag`) and sleeps 1 ms if it is set; then draws
`std::uniform_int_distribution<int>(0, 100)` and yields via
`SwitchToThread()` when `r < 5`, via `Sleep(0)` when `5 ≤ r < 10`, and not
at all otherwise. -/
def SimulateGCSafepoint (pauseFlag : Bool) (g : Prng) : SafepointResult × Prng :=
  let slept := if pauseFlag then 1 else 0
  let (r, g') := uniformInt 0 100 g
  let y : YieldAction :=
    if r < 5 then .switchToThread
    else if r < 10 then .sleepZero
    else .nothing
  (⟨slept, r, y⟩, g')

/-- Events observable in one `DoReads` iteration: safepoint checks, the
scatter handle lifecycle (`opened` = successful `VMMDLL_Scatter_Initialize`,
`closed` = `VMMDLL_Scatter_CloseHandle`), the i-th
`VMMDLL_Scatter_Prepare` registration, the single
`VMMDLL_Scatter_Execute`, and the i-th `VMMDLL_Scatter_Read` result fetch. -/
inductive Ev
  | safepoint
  | opened
  | prepared (i : Nat)
  | executed
  | fetched (i : Nat)
  | closed
deriving Repr, DecidableEq

/-- Oracle for the external calls and fallible allocations of one `DoReads`
iteration: whether `VMMDLL_Scatter_Initialize` returns a handle, whether
the `cbWants` vector allocation succeeds (a C++ `std::vector` constructor
may raise `std::bad_alloc`), whether the i-th read-back `buffer` vector
allocation succeeds, and the byte count the i-th `VMMDLL_Scatter_Read`
reports. The `BOOL` results of `VMMDLL_Scatter_Prepare` and
`VMMDLL_Scatter_Execute` are discarded by the source (`(void)` casts), so
they do not appear. -/
structure ScatterEnv where
  scatterOpenOk : Bool
  cbWantsAllocOk : Bool
  bufferAllocOk : Nat → Bool
  cbRead : Nat → Nat

/-- The prepare loop (`STEP 1` of `DoReads`): for each `i`, draw
`cbWants[i]` from `std::uniform_int_distribution<uint32_t>(4, 0x01E00000)`,
register the read, and run a safepoint check when `i % 100 == 0`. Returns
the drawn `cbWants`, the emitted events, and the threaded engine. The
index argument is the value of `i` for the first remaining iteration. -/
def prepareLoop (pauseFlag : Bool) : Nat → Nat → Prng → List Nat × List Ev × Prng
  | 0, _, g => ([], [], g)
  | n + 1, i, g =>
    let d := uniformInt 4 0x01E00000 g
    let step : List Ev × Prng :=
      if i % 100 = 0 then
        ([Ev.prepared i, Ev.safepoint], (SimulateGCSafepoint pauseFlag d.2).2)
      else ([Ev.prepared i], d.2)
    let rest := prepareLoop pauseFlag n (i + 1) step.2
    (d.1 :: rest.1, step.1 ++ rest.2.1, rest.2.2)

/-- `DWORD readSize = min(cbWants[i], 0x1000)` in the read-back loop. -/
def readSizeOf (cbWant : Nat) : Nat := min cbWant 0x1000

/-- The read-back loop (`STEP 3` of `DoReads`): for each registered unit,
allocate a `buffer` of `readSizeOf cbWants[i]` bytes (fallible), fetch the
result, touch `buffer[0]` when any bytes were returned, and run a safepoint
check when `i % 100 == 0`. A failed allocation raises `std::bad_alloc`,
which aborts the loop and propagates (second component `true`). -/
def readLoop (pauseFlag : Bool) (env : ScatterEnv) :
    List Nat → Nat → Prng → List Ev × Bool × Prng
  | [], _, g => ([], false, g)
  | w :: ws, i, g =>
    if env.bufferAllocOk i then
      let buffer : List Nat := List.replicate (readSizeOf w) 0
      let _touch : Option Nat := if env.cbRead i ≠ 0 then buffer[0]? else none
      let step : List Ev × Prng :=
        if i % 100 = 0 then
          ([Ev.fetched i, Ev.safepoint], (SimulateGCSafepoint pauseFlag g).2)
        else ([Ev.fetched i], g)
      let rest := readLoop pauseFlag env ws (i + 1) step.2
      (step.1 ++ rest.1, rest.2.1, rest.2.2)
    else ([], true, g)

/-- Result of one `DoReads` iteration: the event trace and whether an
exception (`std::bad_alloc` from a vector allocation) propagated out of
`DoReads` to the worker's catch boundary. -/
structure DoReadsResult where
  trace : List Ev
  fault : Bool
deriving Repr, DecidableEq

/-- One `DoReads(vmm)` iteration: draw the cache flag and the batch size,
sample that many pages, safepoint, open the scatter handle (early return if
it is null), safepoint, allocate `cbWants`, run the prepare loop, safepoint,
execute, safepoint, run the read-back loop, and close the handle. A vector
allocation failure propagates as an exception, skipping the close. An
out-of-bounds sampling draw (possible only on an empty pool) is undefined
behaviour in the C++ source and is flagged as `fault`. -/
def DoReads (pauseFlag : Bool) (env : ScatterEnv) (pool : List PMemPageEntry)
    (g : Prng) : DoReadsResult :=
  let db := uniformInt 0 1 g
  let dc := uniformInt 4 4096 db.2
  let smp := GetRandomPages pool dc.2 dc.1
  match smp.1 with
  | none => ⟨[], true⟩
  | some pages =>
    let g4 := (SimulateGCSafepoint pauseFlag smp.2).2
    if !env.scatterOpenOk then ⟨[Ev.safepoint], false⟩
    else
      let g5 := (SimulateGCSafepoint pauseFlag g4).2
      if !env.cbWantsAllocOk then ⟨[Ev.safepoint, Ev.opened, Ev.safepoint], true⟩
      else
        let pl := prepareLoop pauseFlag pages.length 0 g5
        let g7 := (SimulateGCSafepoint pauseFlag pl.2.2).2
        let g8 := (SimulateGCSafepoint pauseFlag g7).2
        let rl := readLoop pauseFlag env pl.1 0 g8
        if rl.2.1 then
          ⟨[Ev.safepoint, Ev.opened, Ev.safepoint] ++ pl.2.1 ++
            [Ev.safepoint, Ev.executed, Ev.safepoint] ++ rl.1, true⟩
        else
          ⟨[Ev.safepoint, Ev.opened, Ev.safepoint] ++ pl.2.1 ++
            [Ev.safepoint, Ev.executed, Ev.safepoint] ++ rl.1 ++ [Ev.closed], false⟩

/-- Outcome of one `DoReads(vmm)` call as seen by a worker's try/catch
boundary: normal return, a caught `const std::exception&`, or anything else
(caught by `catch (...)`). -/
inductive IterOutcome
  | ok
  | stdException (msg : String)
  | unknownFault
deriving Repr, DecidableEq

/-- Observable effect of one loop body of `LongWorker` / `TransientWorker`
on its catch boundary: the crash counter after the iteration, whether a
log line was written to `std::cerr`, and whether the loop continues to the
next iteration. -/
structure IterResult where
  crashCount : Nat
  logged : Bool
  continues : Bool
deriving Repr, DecidableEq

/-- The shared catch boundary of `LongWorker` and `TransientWorker`: a
`std::exception` is logged and the loop continues; any other exception is
logged, `g_crashCount` is incremented, and the loop continues; a normal
return continues silently. -/
def workerCatch (o : IterOutcome) (crash : Nat) : IterResult :=
  match o with
  | .ok => ⟨crash, false, true⟩
  | .stdException _ => ⟨crash, true, true⟩
  | .unknownFault => ⟨crash + 1, true, true⟩

/-- A finite prefix of a worker loop: fold `workerCatch` over the observed
iteration outcomes, starting from crash counter `crash`. -/
def workerLoopRun (outcomes : List IterOutcome) (crash : Nat) : Nat :=
  outcomes.foldl (fun acc o => (workerCatch o acc).crashCount) crash

/-- Worker kind: `LongWorker` (runs forever) or `TransientWorker` (bounded
lifetime, respawns a successor). -/
inductive WKind
  | long
  | transient
deriving Repr, DecidableEq

/-- Lifecycle phase of one worker in the interleaved model. -/
inductive WStatus
  | notStarted
  | running
  | done
deriving Repr, DecidableEq

/-- One worker of the interleaved counter model. -/
structure Worker where
  kind : WKind
  status : WStatus
deriving Repr, DecidableEq

/-- Global state of the worker-counter model: the worker population and the
shared `g_totalWorkers` counter (an `int` in the source, hence `Int`). -/
structure SysState where
  workers : List Worker
  total : Int
deriving Repr, DecidableEq

/-- Interleaved step relation over the worker population.

`start`: a not-yet-started worker runs `g_totalWorkers++` as its first
action (`LongWorker` line 237, `TransientWorker` line 266) and becomes
running.

`finish`: a running `TransientWorker` whose lifetime has expired runs
`g_totalWorkers--` (line 298) and then `SpawnTransientWorker` (line 301),
which adds one fresh not-yet-started `TransientWorker` to the population.
`LongWorker` has no terminating step. The decrement and the spawn are one
step here; splitting them only delays the append and cannot lower the
counter further. -/
inductive Step : SysState → SysState → Prop
  | start (pre post : List Worker) (k : WKind) (t : Int) :
      Step ⟨pre ++ ⟨k, .notStarted⟩ :: post, t⟩
           ⟨pre ++ ⟨k, .running⟩ :: post, t + 1⟩
  | finish (pre post : List Worker) (t : Int) :
      Step ⟨pre ++ ⟨.transient, .running⟩ :: post, t⟩
           ⟨(pre ++ ⟨.transient, .done⟩ :: post) ++ [⟨.transient, .notStarted⟩], t - 1⟩

/-- Reflexive-transitive closure of `Step`. -/
inductive Reachable (init : SysState) : SysState → Prop
  | refl : Reachable init init
  | step {s s' : SysState} : Reachable init s → Step s s' → Reachable init s'

/-- Initial state spawned by `main`: a fixed population of workers, none of
which has run its increment yet, and `g_totalWorkers = 0`. -/
def initState (ks : List WKind) : SysState :=
  ⟨ks.map (fun k => ⟨k, .notStarted⟩), 0⟩

/-- Number of currently running workers. -/
def runningCount (l : List Worker) : Nat :=
  l.countP (fun w => w.status == .running)

/-- Each step keeps `g_totalWorkers` equal to the number of running
workers. -/
theorem Step.preserves_count {s s' : SysState} (h : Step s s')
    (hinv : s.total = (runningCount s.workers : Int)) :
    s'.total = (runningCount s'.workers : Int) := by
  cases h with
  | start pre post k t =>
    simp [runningCount, List.countP_append, List.countP_cons] at hinv ⊢
    omega
  | finish pre post t =>
    simp [runningCount, List.countP_append, List.countP_cons] at hinv ⊢
    omega

/-- In every reachable state, `g_totalWorkers` counts the running
workers. -/
theorem Reachable.count_inv {ks : List WKind} {s : SysState}
    (h : Reachable (initState ks) s) :
    s.total = (runningCount s.workers : Int) := by
  induction h with
  | refl =>
    simp only [initState, runningCount]
    induction ks with
    | nil => simp
    | cons k ks ih => simpa [List.countP_cons] using ih
  | step _ hstep ih => exact hstep.preserves_count ih

/-- A concrete seeded engine whose raw stream is constantly `0`. -/
def gZero : Prng := ⟨fun _ => 0, 0⟩

/-- A concrete seeded engine whose raw stream is constantly `100`. -/
def gHundred : Prng := ⟨fun _ => 100, 0⟩

/-- A concrete oracle on which every external call succeeds and every
allocation succeeds; reads report `0` bytes. -/
def envOk : ScatterEnv := ⟨true, true, fun _ => true, fun _ => 0⟩

/-- A concrete oracle on which the scatter handle opens and the `cbWants`
allocation succeeds, but the first read-back `buffer` allocation raises
`std::bad_alloc`. -/
def envLeak : ScatterEnv := ⟨true, true, fun _ => false, fun _ => 0⟩

/-- C1 counterexample: a region of `4096*2+1` bytes contributes 2 units,
not 1 — after the first unit `4097` bytes remain, which still strictly
exceeds one page, so the loop pushes a second unit. -/
theorem buildPageList_two_page_plus_one_counterexample :
    (pageListLoop 0 (4096 * 2 + 1)).length = 2 ∧
    ¬ (pageListLoop 0 (4096 * 2 + 1)).length = 1 := by decide

/-- C1 (amended): `BuildPageList` carves a region only while its remaining
length strictly exceeds one page, so a region of length `cb` contributes
`(cb-1)/4096` units: one full page contributes 0, `4096*2+1` contributes
2, and regions `{8192, 4096, 20480}` contribute `{1, 0, 4}` units, for a
total pool size of 5 under any shuffle. -/
theorem buildPageList_unit_counts (p b1 b2 b3 : Nat) (pool : List PMemPageEntry)
    (hpool : PoolOf [⟨b1, 8192⟩, ⟨b2, 4096⟩, ⟨b3, 20480⟩] pool) :
    (∀ q cb : Nat, (pageListLoop q cb).length = (cb - 1) / 4096) ∧
    (pageListLoop p 4096).length = 0 ∧
    (pageListLoop p (4096 * 2 + 1)).length = 2 ∧
    (pageListLoop b1 8192).length = 1 ∧
    (pageListLoop b2 4096).length = 0 ∧
    (pageListLoop b3 20480).length = 4 ∧
    pool.length = 5 := by
  have hlen : ∀ q cb : Nat, (pageListLoop q cb).length = (cb - 1) / 4096 :=
    pageListLoop_length
  refine ⟨hlen, ?_, ?_, ?_, ?_, ?_, ?_⟩
  · rw [hlen]
  · rw [hlen]
  · rw [hlen]
  · rw [hlen]
  · rw [hlen]
  · rw [hpool.length_eq]
    simp [buildPageList, hlen]

/-- Closed witness for `buildPageList_unit_counts`, with the identity
shuffle. -/
theorem buildPageList_unit_counts_witness :
    PoolOf [⟨0, 8192⟩, ⟨4, 4096⟩, ⟨8, 20480⟩]
      (buildPageList [⟨0, 8192⟩, ⟨4, 4096⟩, ⟨8, 20480⟩]) ∧
    (buildPageList [⟨0, 8192⟩, ⟨4, 4096⟩, ⟨8, 20480⟩]).length = 5 :=
  ⟨List.Perm.refl _,
    (buildPageList_unit_counts 0 0 4 8 _ (List.Perm.refl _)).2.2.2.2.2.2⟩

/-- Every entry a region contributes has more than one page remaining to
the region's end. -/
theorem pageListLoop_mem_remaining {p cb : Nat} {x : PMemPageEntry}
    (hx : x ∈ pageListLoop p cb) : 4096 < x.RemainingBytesInSection := by
  rw [pageListLoop_eq] at hx
  obtain ⟨k, hk, rfl⟩ := List.mem_map.mp hx
  rw [List.mem_range] at hk
  have h2 : (k + 1) * 4096 ≤ ((cb - 1) / 4096) * 4096 :=
    Nat.mul_le_mul_right _ hk
  have h3 : ((cb - 1) / 4096) * 4096 ≤ cb - 1 := Nat.div_mul_le_self _ _
  simp only
  omega

/-- C9: every entry `BuildPageList` places in the pool keeps strictly more
than one page to its source region's end, and the k-th entry a region
contributes is exactly `⟨base + k*4096, length - k*4096⟩` — its remaining
count is the distance from its base to the region's end, and its full page
lies inside the region. -/
theorem buildPageList_entry_invariants (regions : List PhysMemRegion)
    (p cb k : Nat) (e : PMemPageEntry) :
    (∀ x ∈ buildPageList regions, 4096 < x.RemainingBytesInSection) ∧
    ((pageListLoop p cb)[k]? = some e →
      e.PageBase = p + k * 4096 ∧
      e.RemainingBytesInSection = cb - k * 4096 ∧
      4096 < e.RemainingBytesInSection ∧
      e.PageBase + 4096 ≤ p + cb) := by
  constructor
  · intro x hx
    simp only [buildPageList, List.mem_flatMap] at hx
    obtain ⟨r, _, hr⟩ := hx
    exact pageListLoop_mem_remaining hr
  · intro hk
    rw [pageListLoop_eq, List.getElem?_map] at hk
    by_cases hklt : k < (cb - 1) / 4096
    · rw [List.getElem?_range hklt] at hk
      simp only [Option.map_some'] at hk
      have h2 : (k + 1) * 4096 ≤ ((cb - 1) / 4096) * 4096 :=
        Nat.mul_le_mul_right _ hklt
      have h3 : ((cb - 1) / 4096) * 4096 ≤ cb - 1 := Nat.div_mul_le_self _ _
      cases hk
      refine ⟨by simp; omega, by simp; omega, by simp; omega, by simp; omega⟩
    · rw [List.getElem?_eq_none (by simpa using Nat.le_of_not_lt hklt)] at hk
      simp at hk

/-- Closed witness for `buildPageList_entry_invariants`: the second entry
of a `8193`-byte region at base 0. -/
theorem buildPageList_entry_invariants_witness :
    (⟨4096, 4097⟩ : PMemPageEntry).PageBase = 0 + 1 * 4096 ∧
    (⟨4096, 4097⟩ : PMemPageEntry).RemainingBytesInSection = 8193 - 1 * 4096 ∧
    4096 < (⟨4096, 4097⟩ : PMemPageEntry).RemainingBytesInSection ∧
    (⟨4096, 4097⟩ : PMemPageEntry).PageBase + 4096 ≤ 0 + 8193 :=
  (buildPageList_entry_invariants [⟨0, 8193⟩] 0 8193 1 ⟨4096, 4097⟩).2 (by decide)

/-- C2 counterexample: on an empty pool, `GetRandomPage` computes
`pages_.size() - 1` as the wrapped `size_t` value `2^64 - 1`, draws an
index, and dereferences `pages_[idx]` out of bounds — in the model the
vector access misses (`none`), i.e. the C++ source reaches undefined
behaviour on this path; there is no check and no throw, so the failure is
not a controlled panic/abort. -/
theorem emptyPool_sample_counterexample :
    (GetRandomPage [] gZero).1 = none ∧ (GetRandomPages [] gZero 1).1 = none := by
  decide

/-- C2 (amended): if the pool is empty and `n > 0`, sampling performs an
out-of-bounds vector access (undefined behaviour), not a controlled
panic; construction does fail fatally (throws `std::runtime_error`,
terminating initialization) when the reported region map is missing or has
an unexpected version. -/
theorem sample_and_build_failure_modes (g : Prng) (n v : Nat) (mm : PhysMemMap)
    (hn : 0 < n) (hv : mm.dwVersion ≠ v) :
    (GetRandomPages [] g n).1 = none ∧
    buildPageListChecked v none = Except.error "Unexpected physmem map version." ∧
    buildPageListChecked v (some mm) =
      Except.error "Unexpected physmem map version." := by
  refine ⟨?_, rfl, ?_⟩
  · match n, hn with
    | n + 1, _ => simp [GetRandomPages, GetRandomPage]
  · simp [buildPageListChecked, hv]

/-- Closed witness for `sample_and_build_failure_modes`. -/
theorem sample_and_build_failure_modes_witness :
    0 < 1 ∧ (PhysMemMap.mk 7 []).dwVersion ≠ 6 ∧
    (GetRandomPages [] gZero 1).1 = none ∧
    buildPageListChecked 6 none = Except.error "Unexpected physmem map version." ∧
    buildPageListChecked 6 (some (PhysMemMap.mk 7 [])) =
      Except.error "Unexpected physmem map version." :=
  ⟨by decide, by decide,
    sample_and_build_failure_modes gZero 1 6 (PhysMemMap.mk 7 []) (by decide) (by decide)⟩

/-- On a non-empty pool (of fewer than `2^64` entries, the `size_t` range),
`GetRandomPage` reduces to an in-range modular index draw plus one stream
advance. -/
theorem GetRandomPage_eq (pool : List PMemPageEntry) (g : Prng)
    (hne : pool ≠ []) (hlt : pool.length < wordSize) :
    GetRandomPage pool g =
      (pool[(g.stream g.pos) % pool.length]?, ⟨g.stream, g.pos + 1⟩) := by
  have hpos : 0 < pool.length := List.length_pos.mpr hne
  have hws : 0 < wordSize := by norm_num [wordSize]
  have hhi : (pool.length + (wordSize - 1)) % wordSize = pool.length - 1 := by
    have h1 : pool.length + (wordSize - 1) = (pool.length - 1) + wordSize := by omega
    rw [h1, Nat.add_mod_right]
    exact Nat.mod_eq_of_lt (by omega)
  have h2 : pool.length - 1 + 1 = pool.length := by omega
  simp [GetRandomPage, uniformInt, Prng.next, hhi, h2]

/-- C6: on a non-empty pool, `GetRandomPages` returns exactly `n` elements,
each a member of the pool (drawn with replacement — the same entry may
repeat), and the result is a function of the raw draws consumed: two
engines at the same cursor whose streams agree on the `n` consumed draws
produce identical samples. -/
theorem GetRandomPages_sample_spec (pool : List PMemPageEntry) (n : Nat) :
    ∀ g g' : Prng, pool ≠ [] → pool.length < wordSize →
    g.pos = g'.pos →
    (∀ k, k < n → g.stream (g.pos + k) = g'.stream (g'.pos + k)) →
    ∃ l, (GetRandomPages pool g n).1 = some l ∧ l.length = n ∧
      (∀ x ∈ l, x ∈ pool) ∧ (GetRandomPages pool g' n).1 = some l := by
  induction n with
  | zero =>
    intro g g' hne hlt hp hs
    exact ⟨[], rfl, rfl, by simp, rfl⟩
  | succ n ih =>
    intro g g' hne hlt hp hs
    have hpos : 0 < pool.length := List.length_pos.mpr hne
    have h0 : g.stream g.pos = g'.stream g'.pos := by
      have := hs 0 (Nat.succ_pos n)
      simpa using this
    have hidx : (g.stream g.pos) % pool.length < pool.length :=
      Nat.mod_lt _ hpos
    have hg := GetRandomPage_eq pool g hne hlt
    have hg' := GetRandomPage_eq pool g' hne hlt
    have hsome : pool[(g.stream g.pos) % pool.length]? =
        some (pool.get ⟨(g.stream g.pos) % pool.length, hidx⟩) := by
      simp [List.getElem?_eq_getElem hidx]
    obtain ⟨l, hl1, hl2, hl3, hl4⟩ :=
      ih ⟨g.stream, g.pos + 1⟩ ⟨g'.stream, g'.pos + 1⟩ hne hlt
        (by simp [hp])
        (by
          intro k hk
          have := hs (k + 1) (by omega)
          simpa [Nat.add_assoc, Nat.add_comm 1 k] using this)
    refine ⟨pool.get ⟨(g.stream g.pos) % pool.length, hidx⟩ :: l, ?_, ?_, ?_, ?_⟩
    · simp only [GetRandomPages, hg, hsome, hl1]
      simp
    · simpa using hl2
    · intro x hx
      rcases List.mem_cons.mp hx with rfl | hx
      · exact List.get_mem _ _ _
      · exact hl3 x hx
    · rw [show (g'.stream g'.pos) % pool.length = (g.stream g.pos) % pool.length by
        rw [h0]] at hg'
      simp only [GetRandomPages, hg', hsome, hl4]
      simp

/-- Closed witness for `GetRandomPages_sample_spec`: two draws from a
one-entry pool with the constant-zero stream. -/
theorem GetRandomPages_sample_spec_witness :
    ∃ l, (GetRandomPages [⟨0, 0⟩] gZero 2).1 = some l ∧ l.length = 2 ∧
      (∀ x ∈ l, x ∈ [(⟨0, 0⟩ : PMemPageEntry)]) ∧
      (GetRandomPages [⟨0, 0⟩] gZero 2).1 = some l :=
  GetRandomPages_sample_spec [⟨0, 0⟩] 2 gZero gZero (by decide)
    (by norm_num [wordSize]) rfl (fun k hk => rfl)

/-- C7 counterexample: `std::uniform_int_distribution<int>(0, 100)` draws
over the closed interval `[0, 100]`, so a raw draw mapping to `100` is
attainable — the drawn value is not confined to the half-open range
`[0, 100)` the claim states. -/
theorem safepoint_draw_counterexample :
    (SimulateGCSafepoint false gHundred).1.draw = 100 ∧
    ¬ (SimulateGCSafepoint false gHundred).1.draw < 100 := by decide

/-- C7 (amended): every `SimulateGCSafepoint` call first sleeps 1 ms if and
only if the shared pause flag is set, then draws one uniform value over the
closed range `[0, 100]`; values `< 5` yield via `SwitchToThread()` (no
sleep), values in `[5, 10)` yield via `Sleep(0)`, and values `≥ 10` do
nothing. The pause behaviour and the yield behaviour are independent and
both evaluated on every call. -/
theorem safepoint_behaviour (pauseFlag : Bool) (g : Prng) :
    ((SimulateGCSafepoint pauseFlag g).1.sleptPauseMs =
      if pauseFlag then 1 else 0) ∧
    (SimulateGCSafepoint pauseFlag g).1.draw ≤ 100 ∧
    ((SimulateGCSafepoint pauseFlag g).1.draw < 5 →
      (SimulateGCSafepoint pauseFlag g).1.yield = YieldAction.switchToThread) ∧
    (5 ≤ (SimulateGCSafepoint pauseFlag g).1.draw →
      (SimulateGCSafepoint pauseFlag g).1.draw < 10 →
      (SimulateGCSafepoint pauseFlag g).1.yield = YieldAction.sleepZero) ∧
    (10 ≤ (SimulateGCSafepoint pauseFlag g).1.draw →
      (SimulateGCSafepoint pauseFlag g).1.yield = YieldAction.nothing) := by
  have hmod : (g.stream g.pos) % (100 - 0 + 1) < 101 := Nat.mod_lt _ (by norm_num)
  simp only [SimulateGCSafepoint, uniformInt, Prng.next, Nat.zero_add]
  refine ⟨by simp, by omega, ?_, ?_, ?_⟩
  · intro h5
    rw [if_pos h5]
  · intro h5 h10
    rw [if_neg (by omega), if_pos h10]
  · intro h10
    rw [if_neg (by omega), if_neg (by omega)]

/-- Closed witness for `safepoint_behaviour`: with the pause flag set and a
constant-zero stream, the pause sleep happens and the draw `0 < 5` selects
`SwitchToThread()`. -/
theorem safepoint_behaviour_witness :
    (SimulateGCSafepoint true gZero).1.sleptPauseMs = (if True then 1 else 0) ∧
    (SimulateGCSafepoint true gZero).1.yield = YieldAction.switchToThread :=
  ⟨by simpa using (safepoint_behaviour true gZero).1,
    (safepoint_behaviour true gZero).2.2.1 (by decide)⟩

/-- A finite worker-loop prefix accumulates exactly one crash-count
increment per unrecognized fault. -/
theorem workerLoopRun_count (outcomes : List IterOutcome) :
    ∀ c, workerLoopRun outcomes c = c + outcomes.count IterOutcome.unknownFault := by
  induction outcomes with
  | nil => intro c; simp [workerLoopRun]
  | cons o os ih =>
    intro c
    have hstep : workerLoopRun (o :: os) c = workerLoopRun os (workerCatch o c).crashCount := rfl
    rw [hstep, ih]
    cases o with
    | ok => simp [workerCatch, List.count_cons]
    | stdException m => simp [workerCatch, List.count_cons]
    | unknownFault =>
      simp [workerCatch, List.count_cons]
      omega

/-- C5: at the worker loop boundary (`LongWorker` and `TransientWorker`),
a recognized `std::exception` is logged and leaves `g_crashCount`
unchanged, an unrecognized fault is logged and increments it by exactly
one, and in both cases the loop continues — over any finite run the final
crash count is the initial count plus the number of unrecognized faults,
so no fault propagates past a single iteration boundary. -/
theorem worker_fault_boundary (o : IterOutcome) (c : Nat)
    (outcomes : List IterOutcome) :
    (workerCatch o c).continues = true ∧
    ((workerCatch o c).crashCount =
      c + if o = IterOutcome.unknownFault then 1 else 0) ∧
    (∀ m, o = IterOutcome.stdException m →
      (workerCatch o c).logged = true ∧ (workerCatch o c).crashCount = c) ∧
    (o = IterOutcome.unknownFault → (workerCatch o c).logged = true) ∧
    workerLoopRun outcomes c = c + outcomes.count IterOutcome.unknownFault := by
  refine ⟨?_, ?_, ?_, ?_, workerLoopRun_count outcomes c⟩ <;>
    cases o <;> simp [workerCatch]

/-- Closed witness for `worker_fault_boundary`: an `std::exception`
iteration leaves the counter at 3 and continues. -/
theorem worker_fault_boundary_witness :
    (workerCatch (IterOutcome.stdException "oob") 3).continues = true ∧
    (workerCatch (IterOutcome.stdException "oob") 3).logged = true ∧
    (workerCatch (IterOutcome.stdException "oob") 3).crashCount = 3 ∧
    workerLoopRun [IterOutcome.ok, IterOutcome.unknownFault,
      IterOutcome.stdException "x", IterOutcome.unknownFault] 3 = 3 + 2 := by
  have h := worker_fault_boundary (IterOutcome.stdException "oob") 3
    [IterOutcome.ok, IterOutcome.unknownFault,
      IterOutcome.stdException "x", IterOutcome.unknownFault]
  refine ⟨h.1, (h.2.2.1 "oob" rfl).1, (h.2.2.1 "oob" rfl).2, ?_⟩
  rw [h.2.2.2.2]
  decide

/-- C4: in every reachable state of the interleaved worker model — each
`LongWorker` / `TransientWorker` increments `g_totalWorkers` once at start,
only a terminating `TransientWorker` decrements it once, and each
terminating `TransientWorker` spawns exactly one successor —
`g_totalWorkers` is at least 0 (it always equals the number of running
workers, by `Reachable.count_inv`). -/
theorem totalWorkers_nonneg (ks : List WKind) (s : SysState)
    (h : Reachable (initState ks) s) : 0 ≤ s.total := by
  rw [h.count_inv]
  exact Int.natCast_nonneg _

/-- Closed witness for `totalWorkers_nonneg`: one transient worker starts,
expires (decrementing the counter and spawning its successor); the counter
is back to 0 and non-negative. -/
theorem totalWorkers_nonneg_witness :
    0 ≤ (SysState.mk (([] ++ ⟨WKind.transient, WStatus.done⟩ :: []) ++
      [⟨WKind.transient, WStatus.notStarted⟩]) (0 + 1 - 1)).total :=
  totalWorkers_nonneg [WKind.transient] _
    (Reachable.step (Reachable.step Reachable.refl
      (Step.start [] [] WKind.transient 0)) (Step.finish [] [] (0 + 1)))

/-- C3 counterexample: on an oracle where the scatter handle opens but the
first read-back `buffer` vector allocation raises `std::bad_alloc`, the
exception propagates out of `DoReads` past the final
`VMMDLL_Scatter_CloseHandle` call — the handle is opened and never
closed. -/
theorem scatter_leak_counterexample :
    Ev.opened ∈ (DoReads false envLeak [⟨0, 0⟩] gZero).trace ∧
    Ev.closed ∉ (DoReads false envLeak [⟨0, 0⟩] gZero).trace ∧
    (DoReads false envLeak [⟨0, 0⟩] gZero).fault = true := by decide

/-- C3 (amended): in every `DoReads` iteration out of which no exception
propagates, a successfully opened scatter context is closed on every exit
path (early return on a null handle opens nothing; all soft call failures
still reach the close). An exception raised between open and close —
a `std::vector` allocation failure — escapes without closing the
context. -/
theorem scatter_close_on_no_fault (pauseFlag : Bool) (env : ScatterEnv)
    (pool : List PMemPageEntry) (g : Prng)
    (hf : (DoReads pauseFlag env pool g).fault = false)
    (ho : Ev.opened ∈ (DoReads pauseFlag env pool g).trace) :
    Ev.closed ∈ (DoReads pauseFlag env pool g).trace := by
  simp only [DoReads] at hf ho ⊢
  generalize GetRandomPages pool (uniformInt 4 4096 (uniformInt 0 1 g).2).2
      (uniformInt 4 4096 (uniformInt 0 1 g).2).1 = smp at hf ho ⊢
  obtain ⟨o, ga⟩ := smp
  dsimp only at hf ho ⊢
  cases o with
  | none => simp at hf
  | some pages =>
    dsimp only at hf ho ⊢
    cases hopen : env.scatterOpenOk with
    | false => simp [hopen] at ho
    | true =>
      cases hcb : env.cbWantsAllocOk with
      | false => simp [hopen, hcb] at hf
      | true =>
        simp only [hopen, hcb, Bool.not_true, Bool.false_eq_true, if_false] at hf ho ⊢
        set g5 := (SimulateGCSafepoint pauseFlag (SimulateGCSafepoint pauseFlag ga).2).2 with hg5
        set pl := prepareLoop pauseFlag pages.length 0 g5 with hpl
        set g8 := (SimulateGCSafepoint pauseFlag (SimulateGCSafepoint pauseFlag pl.2.2).2).2 with hg8
        set rl := readLoop pauseFlag env pl.1 0 g8 with hrl0
        cases hrl : rl.2.1 with
        | true => simp [hrl] at hf
        | false => simp [hrl]

/-- Closed witness for `scatter_close_on_no_fault`: a fully successful
iteration over a one-page pool. -/
theorem scatter_close_on_no_fault_witness :
    Ev.closed ∈ (DoReads false envOk [⟨0, 0⟩] gZero).trace :=
  scatter_close_on_no_fault false envOk [⟨0, 0⟩] gZero (by decide) (by decide)

/-- The events the prepare loop of `DoReads` emits from start index `i`:
one registration per element, with a safepoint check after the
registrations whose loop index satisfies `i % 100 == 0`. -/
theorem prepareLoop_events (pauseFlag : Bool) (n : Nat) :
    ∀ (i : Nat) (g : Prng), (prepareLoop pauseFlag n i g).2.1 =
      (List.range n).flatMap
        (fun k => Ev.prepared (i + k) ::
          (if (i + k) % 100 = 0 then [Ev.safepoint] else [])) := by
  induction n with
  | zero => intro i g; simp [prepareLoop]
  | succ n ih =>
    intro i g
    rw [List.range_succ_eq_map, List.flatMap_cons, List.flatMap_map]
    by_cases hi : i % 100 = 0
    · simp only [prepareLoop, if_pos hi]
      rw [ih (i + 1)]
      simp only [Nat.add_zero, if_pos hi]
      congr 1
      exact List.flatMap_congr fun a _ => by
        rw [show i + Nat.succ a = i + 1 + a by omega]
    · simp only [prepareLoop, if_neg hi]
      rw [ih (i + 1)]
      simp only [Nat.add_zero, if_neg hi]
      congr 1
      exact List.flatMap_congr fun a _ => by
        rw [show i + Nat.succ a = i + 1 + a by omega]

/-- The events the read-back loop of `DoReads` emits from start index `i`
when no buffer allocation fails: one fetch per element, with a safepoint
check after the fetches whose loop index satisfies `i % 100 == 0`; no
fault. -/
theorem readLoop_events (pauseFlag : Bool) (env : ScatterEnv)
    (halloc : ∀ j, env.bufferAllocOk j = true) (ws : List Nat) :
    ∀ (i : Nat) (g : Prng),
      (readLoop pauseFlag env ws i g).1 =
        (List.range ws.length).flatMap
          (fun k => Ev.fetched (i + k) ::
            (if (i + k) % 100 = 0 then [Ev.safepoint] else [])) ∧
      (readLoop pauseFlag env ws i g).2.1 = false := by
  induction ws with
  | nil => intro i g; simp [readLoop]
  | cons w ws ih =>
    intro i g
    rw [List.length_cons, List.range_succ_eq_map, List.flatMap_cons, List.flatMap_map]
    by_cases hi : i % 100 = 0
    · simp only [readLoop, halloc i, if_pos hi, if_true]
      constructor
      · rw [(ih (i + 1) ((SimulateGCSafepoint pauseFlag g).2)).1]
        simp only [Nat.add_zero, if_pos hi]
        congr 1
        exact List.flatMap_congr fun a _ => by
          rw [show i + Nat.succ a = i + 1 + a by omega]
      · exact (ih (i + 1) _).2
    · simp only [readLoop, halloc i, if_neg hi, if_true]
      constructor
      · rw [(ih (i + 1) g).1]
        simp only [Nat.add_zero, if_neg hi]
        congr 1
        exact List.flatMap_congr fun a _ => by
          rw [show i + Nat.succ a = i + 1 + a by omega]
      · exact (ih (i + 1) _).2

/-- Event schedule claimed by the spec for the prepare loop: a safepoint
check after every 100th registration (1-based, i.e. after the 100th,
200th, ... registration) and at no other registration. -/
def specPrepareEvents (n : Nat) : List Ev :=
  (List.range n).flatMap
    (fun i => Ev.prepared i :: (if (i + 1) % 100 = 0 then [Ev.safepoint] else []))

/-- Event schedule claimed by the spec for the read-back loop, analogous
to `specPrepareEvents`. -/
def specReadEvents (n : Nat) : List Ev :=
  (List.range n).flatMap
    (fun i => Ev.fetched i :: (if (i + 1) % 100 = 0 then [Ev.safepoint] else []))

/-- Event schedule the code implements for the prepare loop: the check
runs after the registrations at zero-based indices `0, 100, 200, ...`
(the 1st, 101st, 201st, ... registration). -/
def codePrepareEvents (n : Nat) : List Ev :=
  (List.range n).flatMap
    (fun i => Ev.prepared i :: (if i % 100 = 0 then [Ev.safepoint] else []))

/-- Event schedule the code implements for the read-back loop, analogous
to `codePrepareEvents`. -/
def codeReadEvents (n : Nat) : List Ev :=
  (List.range n).flatMap
    (fun i => Ev.fetched i :: (if i % 100 = 0 then [Ev.safepoint] else []))

/-- C8 counterexample: in a (reachable, since the batch size is at least
4) iteration over 4 units, the `i % 100 == 0` test fires after the first
registration and after the first fetch — not after the 100th — so the
loops do not realize the claimed schedule. -/
theorem safepoint_cadence_counterexample :
    (prepareLoop false 4 0 gZero).2.1 ≠ specPrepareEvents 4 ∧
    (readLoop false envOk [4, 4, 4, 4] 0 gZero).1 ≠ specReadEvents 4 := by decide

/-- C8 (amended): within one workload iteration, a safepoint check is
performed after exactly the registrations and fetches whose zero-based
loop index is a multiple of 100 (the 1st, 101st, 201st, ...), and at no
others. -/
theorem safepoint_cadence (pauseFlag : Bool) (env : ScatterEnv) (n : Nat)
    (ws : List Nat) (g g' : Prng) (halloc : ∀ j, env.bufferAllocOk j = true) :
    (prepareLoop pauseFlag n 0 g).2.1 = codePrepareEvents n ∧
    (readLoop pauseFlag env ws 0 g').1 = codeReadEvents ws.length := by
  constructor
  · rw [prepareLoop_events]
    simp [codePrepareEvents]
  · rw [(readLoop_events pauseFlag env halloc ws 0 g').1]
    simp [codeReadEvents]

/-- Closed witness for `safepoint_cadence`. -/
theorem safepoint_cadence_witness :
    (prepareLoop false 4 0 gZero).2.1 = codePrepareEvents 4 ∧
    (readLoop false envOk [7, 7] 0 gZero).1 = codeReadEvents (List.length [7, 7]) :=
  safepoint_cadence false envOk 4 [7, 7] gZero gZero (fun _ => rfl)

/-- Every desired byte count the prepare loop draws lies in the
`std::uniform_int_distribution<uint32_t>(4, 0x01E00000)` interval. -/
theorem prepareLoop_cbWants_bounds (pauseFlag : Bool) (n : Nat) :
    ∀ (i : Nat) (g : Prng), ∀ w ∈ (prepareLoop pauseFlag n i g).1,
      4 ≤ w ∧ w ≤ 0x01E00000 := by
  induction n with
  | zero =>
    intro i g w hw
    simp [prepareLoop] at hw
  | succ n ih =>
    intro i g w hw
    simp only [prepareLoop] at hw
    rcases List.mem_cons.mp hw with rfl | hw2
    · constructor
      · simp [uniformInt, Prng.next]
      · have hm := Nat.mod_lt (g.stream g.pos)
          (show 0 < 0x01E00000 - 4 + 1 by norm_num)
        simp only [uniformInt, Prng.next]
        omega
    · exact ih (i + 1) _ w hw2

/-- C10: every desired byte count drawn in the prepare loop is in
`[4, 0x01E00000]`, so the read-back buffer of `readSizeOf w` bytes has at
least 4 bytes; it is never empty, and the `buffer[0]` touch performed when
`cbRead > 0` is in bounds. -/
theorem read_buffer_access_safe (pauseFlag : Bool) (n i : Nat) (g : Prng)
    (w : Nat) (hw : w ∈ (prepareLoop pauseFlag n i g).1) :
    4 ≤ w ∧ w ≤ 0x01E00000 ∧ 4 ≤ readSizeOf w ∧
    0 < (List.replicate (readSizeOf w) (0 : Nat)).length ∧
    (List.replicate (readSizeOf w) (0 : Nat))[0]? = some 0 := by
  obtain ⟨h1, h2⟩ := prepareLoop_cbWants_bounds pauseFlag n i g w hw
  have h3 : 4 ≤ readSizeOf w := by
    simp only [readSizeOf]
    omega
  have h4 : 0 < (List.replicate (readSizeOf w) (0 : Nat)).length := by
    simp only [List.length_replicate]
    omega
  refine ⟨h1, h2, h3, h4, ?_⟩
  rw [List.getElem?_eq_getElem h4]
  simp

/-- Closed witness for `read_buffer_access_safe`: the first draw of the
constant-zero stream is the lower bound 4. -/
theorem read_buffer_access_safe_witness :
    4 ≤ 4 ∧ 4 ≤ 0x01E00000 ∧ 4 ≤ readSizeOf 4 ∧
    0 < (List.replicate (readSizeOf 4) (0 : Nat)).length ∧
    (List.replicate (readSizeOf 4) (0 : Nat))[0]? = some 0 :=
  read_buffer_access_safe false 1 0 gZero 4 (by decide)
